import Mathlib

/-!
Verification development for the BallotStudio election render/cache HTTP core
(`main.go`).  The Go handlers are shallowly embedded as pure Lean functions.
Byte strings (Go `string` / `[]byte`) are modelled as `List Char`; HTTP side
effects are modelled by returning a `Response` value together with the updated
storage state, the updated cache, and a trace of the externally visible calls
(storage reads/writes, cache operations, draw-backend invocations, response
writes) in the order the handler performs them.
-/

namespace BallotStudio

/-- Byte strings (Go `string`, `[]byte`) are modelled as lists of characters. -/
abbrev Bytes := List Char

/-- Convenience conversion from Lean string literals to `Bytes`. -/
def str (s : String) : Bytes := s.toList

/-- The election row: `electionRecord{Id, Owner, Data}` as used by `main.go`
(`Id` is the int64 row id, `Owner` the guid string of the owning user, `Data`
the raw JSON bytes stored as-is). -/
structure ElectionRecord where
  Id : Int
  Owner : String
  Data : Bytes
deriving DecidableEq, Repr

/-- `DrawBothOb`: the PDF bytes and the bubble-coordinate JSON bytes produced
together by one call to the external draw backend. -/
structure DrawBothOb where
  Pdf : Bytes
  BubblesJson : Bytes
deriving DecidableEq, Repr

/-- `httpError{code, msg, err}` from `main.go`; the wrapped underlying `err` is
always non-nil where constructed, so only code and message are modelled. -/
structure HttpError where
  code : Nat
  msg : String
deriving DecidableEq, Repr

/-- A value stored in the shared artifact cache.  The Go cache stores
`interface{}`; under a bare digit key the handlers store a `*DrawBothOb` and
under a `<digits>.png` key a `[]byte`. -/
inductive CacheVal where
  | both (pdf bubbles : Bytes)
  | png (bytes : Bytes)
deriving DecidableEq, Repr

/-- Go type assertion `cr.(*DrawBothOb)` in `getPdf`.  The `png` branch
corresponds to a failed assertion (a runtime panic); it is unreachable because
only `getPdf` stores under bare digit keys. -/
def CacheVal.asBoth : CacheVal → DrawBothOb
  | .both p b => ⟨p, b⟩
  | .png s => ⟨s, s⟩

/-- Go type assertion `cr.([]byte)` in `getPng`; the `both` branch corresponds
to a failed assertion (unreachable: only `getPng` stores under `.png` keys). -/
def CacheVal.asPng : CacheVal → Bytes
  | .png s => s
  | .both p _ => p

/-- Modelled from the spec: the shared artifact cache (the `Cache` interface
implementation lives in the `httpcache` module, not under `src/`).  Per the
spec contract, `Get` returns the stored value, `Put` inserts or overwrites,
`Invalidate` removes.  Capacity-bounded LRU eviction only removes entries and
no claim depends on it, so it is not modelled; recency bookkeeping likewise. -/
def Cache := Bytes → Option CacheVal

/-- Cache lookup (`cache.Get(key)`). -/
def Cache.Get (c : Cache) (k : Bytes) : Option CacheVal := c k

/-- Cache insert/overwrite (`cache.Put(key, value, size)`). -/
def Cache.Put (c : Cache) (k : Bytes) (v : CacheVal) : Cache :=
  fun x => if x = k then some v else c x

/-- Cache removal (`cache.Invalidate(key)`); a no-op when the key is absent. -/
def Cache.Invalidate (c : Cache) (k : Bytes) : Cache :=
  fun x => if x = k then none else c x

/-- The cache with no entries. -/
def emptyCache : Cache := fun _ => none

/-- Externally visible calls a handler makes, in order. -/
inductive Event where
  | getElection (id : Int)
  | putElection (er : ElectionRecord)
  | cacheGet (key : Bytes)
  | cachePut (key : Bytes) (size : Nat)
  | cacheInvalidate (key : Bytes)
  | draw (data : Bytes)
  | pdftopng (pdf : Bytes)
  | respond (status : Nat)
deriving DecidableEq, Repr

/-- The response a handler writes.  Template-rendered pages and the marshalled
`EditContext` are kept symbolic (their byte-level form is external HTML
templating / `encoding/json` marshalling of a fixed struct, which never
fails for `EditContext`). -/
inductive Response where
  | text (status : Nat) (msg : String)
  | jsonErr (status : Nat) (body : String)
  | editJson (newid : Int)
  | rawJson (data : Bytes)
  | pdfBytes (body : Bytes)
  | jsonBytes (body : Bytes)
  | pngBytes (body : Bytes)
  | htmlScanForm (eid : Int)
  | scanUpload (idstr : Bytes)
  | htmlHome (user : Option String)
deriving DecidableEq, Repr

/-- HTTP status code written for each response form (`WriteHeader`, or the Go
default 200 on first `Write`). `scanUpload` is handled by code outside
`src/` (modelled from the spec as an accepted upload, success status). -/
def Response.status : Response → Nat
  | .text c _ => c
  | .jsonErr c _ => c
  | .editJson _ => 200
  | .rawJson _ => 200
  | .pdfBytes _ => 200
  | .jsonBytes _ => 200
  | .pngBytes _ => 200
  | .htmlScanForm _ => 200
  | .scanUpload _ => 200
  | .htmlHome _ => 200

/-- The literal body written by `ServeHTTP` for unrecognized methods on
`/election` and `/election/{id}`. -/
def nopeJson : String := "\x7b\"error\":\"nope\"\x7d"

/-! ## Path matching

`ServeHTTP` routes with the five anchored regexes
`^/election/(\d+)$`, `^/election/(\d+)\.pdf$`, `^/election/(\d+)_bubbles\.json$`,
`^/election/(\d+)\.png$`, `^/election/(\d+)/scan$`.  Each is of the shape
`^pre(\d+)suf$` for literal `pre`/`suf`, captured by `reMatch` below. -/

/-- `[0-9]+`-body test: every character is an ASCII digit. -/
def isDigits (l : Bytes) : Bool := l.all Char.isDigit

/-- Match `path` against the anchored pattern `^pre(\d+)suf$` and return the
captured digit string.  A match requires `pre` as prefix, `suf` as suffix and
a non-empty all-digit middle (overlapping prefix/suffix yields an empty middle
and is rejected, as by the regex). -/
def reMatch (pre suf path : Bytes) : Option Bytes :=
  let rest := path.drop pre.length
  let mid := rest.take (rest.length - suf.length)
  if pre.isPrefixOf path && suf.isSuffixOf path && !mid.isEmpty && isDigits mid
  then some mid else none

/-- Numeric value of a digit string. -/
def digitsToNat (l : Bytes) : Nat :=
  l.foldl (fun a c => a * 10 + (c.toNat - 48)) 0

/-- `strconv.ParseInt(s, 10, 64)` restricted to the digit strings produced by
the route regexes: parses a non-empty decimal digit string (leading zeros
allowed) and fails on empty/non-digit input or on values exceeding the int64
range (Go returns `ErrRange` there, which the callers treat as failure). -/
def parseInt64 (s : Bytes) : Option Int :=
  if !s.isEmpty && isDigits s && decide (digitsToNat s ≤ 9223372036854775807)
  then some (digitsToNat s) else none

/-! ## JSON well-formedness

`handleElectionDocPOST` runs `json.Unmarshal(body, &ob)` with
`ob : map[string]interface{}`.  Go's decoder accepts a single JSON value
surrounded by optional whitespace; unmarshalling into a map additionally
requires the top-level value to be a JSON object (or `null`).  The grammar
below is RFC 8259 JSON, modelled from the documented behavior of
`encoding/json` (an external collaborator, not repository code). -/

/-- JSON insignificant whitespace. -/
def jsonWs (c : Char) : Bool := c = ' ' || c = '\t' || c = '\n' || c = '\r'

/-- Drop leading JSON whitespace. -/
def skipWs : Bytes → Bytes
  | [] => []
  | c :: r => if jsonWs c then skipWs r else c :: r

/-- ASCII hexadecimal digit. -/
def isHex (c : Char) : Bool :=
  c.isDigit || ('a' ≤ c && c ≤ 'f') || ('A' ≤ c && c ≤ 'F')

/-- Consume the remainder of a JSON string literal (the opening quote already
consumed): content characters, escapes, and the closing quote; returns the
input remaining after the closing quote. -/
def jsonStringRest : Bytes → Option Bytes
  | [] => none
  | c :: r =>
    if c = '"' then some r
    else if c = '\\' then
      match r with
      | [] => none
      | e :: r2 =>
        if e = '"' || e = '\\' || e = '/' || e = 'b' || e = 'f' || e = 'n' ||
           e = 'r' || e = 't' then
          jsonStringRest r2
        else if e = 'u' then
          match r2 with
          | a :: b :: c2 :: d :: r3 =>
            if isHex a && isHex b && isHex c2 && isHex d then jsonStringRest r3
            else none
          | _ => none
        else none
    else if c.toNat < 32 then none
    else jsonStringRest r

/-- Optional fraction and exponent parts of a JSON number. -/
def jsonFracExp (s : Bytes) : Option Bytes :=
  let fr : Option Bytes :=
    match s with
    | '.' :: r =>
      match r.span Char.isDigit with
      | ([], _) => none
      | (_, rest) => some rest
    | _ => some s
  match fr with
  | none => none
  | some s2 =>
    match s2 with
    | e :: r =>
      if e = 'e' || e = 'E' then
        let r2 := match r with
          | c :: rr => if c = '+' || c = '-' then rr else c :: rr
          | [] => []
        match r2.span Char.isDigit with
        | ([], _) => none
        | (_, rest) => some rest
      else some (e :: r)
    | [] => some []

/-- A JSON number starting at the head of `s` (optional minus, integer part
without leading zeros, optional fraction and exponent). -/
def jsonNumRest (s : Bytes) : Option Bytes :=
  let s1 := match s with | '-' :: r => r | _ => s
  match s1 with
  | '0' :: r => jsonFracExp r
  | c :: r => if c.isDigit then jsonFracExp (r.span Char.isDigit).2 else none
  | [] => none

/-- Require `lit` as the next characters and drop it. -/
def dropLit (lit : String) (s : Bytes) : Option Bytes :=
  if lit.toList.isPrefixOf s then some (s.drop lit.length) else none

mutual

/-- Consume one JSON value (leading whitespace allowed); `fuel` bounds the
recursion depth and is instantiated large enough for the input length. -/
def jsonValRest : Nat → Bytes → Option Bytes
  | 0, _ => none
  | fuel + 1, s =>
    match skipWs s with
    | [] => none
    | c :: r =>
      if c = '"' then jsonStringRest r
      else if c = '{' then
        match skipWs r with
        | '}' :: r2 => some r2
        | _ => jsonMembers fuel r
      else if c = '[' then
        match skipWs r with
        | ']' :: r2 => some r2
        | _ => jsonElems fuel r
      else if c = 't' then dropLit "rue" r
      else if c = 'f' then dropLit "alse" r
      else if c = 'n' then dropLit "ull" r
      else if c = '-' || c.isDigit then jsonNumRest (c :: r)
      else none

/-- One or more `"key" : value` members followed by `}`. -/
def jsonMembers : Nat → Bytes → Option Bytes
  | 0, _ => none
  | fuel + 1, s =>
    match skipWs s with
    | '"' :: r =>
      match jsonStringRest r with
      | none => none
      | some r2 =>
        match skipWs r2 with
        | ':' :: r3 =>
          match jsonValRest fuel r3 with
          | none => none
          | some r4 =>
            match skipWs r4 with
            | ',' :: r5 => jsonMembers fuel r5
            | '}' :: r5 => some r5
            | _ => none
        | _ => none
    | _ => none

/-- One or more array elements followed by `]`. -/
def jsonElems : Nat → Bytes → Option Bytes
  | 0, _ => none
  | fuel + 1, s =>
    match jsonValRest fuel s with
    | none => none
    | some r =>
      match skipWs r with
      | ',' :: r2 => jsonElems fuel r2
      | ']' :: r2 => some r2
      | _ => none

end

/-- `s` is one well-formed RFC 8259 JSON value with optional surrounding
whitespace. -/
def jsonWellFormed (s : Bytes) : Bool :=
  match jsonValRest (2 * s.length + 4) s with
  | some r => (skipWs r).isEmpty
  | none => false

/-- Modelled from the spec / documented Go behavior: `json.Unmarshal` of `s`
into a `map[string]interface{}` succeeds exactly when `s` is well-formed JSON
whose top-level value is an object or `null` (any other top-level value yields
an `UnmarshalTypeError`). -/
def unmarshalsToMap (s : Bytes) : Bool :=
  jsonWellFormed s &&
    (match skipWs s with
     | '{' :: _ => true
     | 'n' :: _ => true
     | _ => false)

/-! ## Storage

The `electionAppDB` interface (its sqlite/postgres implementations are in the
repository but not under `src/`).  The handlers are stated over an abstract
state type `σ` with the two operations `main.go` uses; `Store` below is a
concrete instance realizing the spec's storage contract. -/

/-- The two `electionAppDB` operations used by the handlers, over an abstract
storage state `σ`.  `getElection` returns `none` both for a missing row and a
query error (the callers treat the two identically); `putElection` returns the
assigned id on success or `none` on a storage error, together with the
post-state. -/
structure DbOps (σ : Type) where
  getElection : σ → Int → Option ElectionRecord
  putElection : σ → ElectionRecord → Option Int × σ

/-- Modelled from the spec: a concrete storage state realizing §4.1 — a list
of rows plus the next fresh id. -/
structure Store where
  recs : List ElectionRecord
  nextId : Int
deriving DecidableEq, Repr

/-- Modelled from the spec: `GetElection(id)` returns the row matching `id`. -/
def Store.getElection (st : Store) (id : Int) : Option ElectionRecord :=
  st.recs.find? (fun r => r.Id == id)

/-- Modelled from the spec: `PutElection(record)` — with `record.Id == 0`
assigns and returns a fresh id; otherwise updates the existing row matching
`Id` unconditionally. -/
def Store.putElection (st : Store) (er : ElectionRecord) : Int × Store :=
  if er.Id = 0 then
    (st.nextId, ⟨⟨st.nextId, er.Owner, er.Data⟩ :: st.recs, st.nextId + 1⟩)
  else
    (er.Id, ⟨st.recs.map (fun r => if r.Id = er.Id then er else r), st.nextId⟩)

/-- `DbOps` instance for `Store` (its `PutElection` never fails). -/
def storeOps : DbOps Store :=
  ⟨Store.getElection, fun st er => let p := st.putElection er; (some p.1, p.2)⟩

/-- A storage backend whose `PutElection` always fails and whose
`GetElection` finds nothing, for exercising the write-failure paths. -/
def failingPutOps : DbOps Unit :=
  ⟨fun _ _ => none, fun st _ => (none, st)⟩

/-- The external render collaborators: `draw(drawBackend, electionJSON)`
returning the PDF and bubble JSON produced together, and `pdftopng`;
`none` models a backend/conversion error. -/
structure RenderOps where
  draw : Bytes → Option (Bytes × Bytes)
  pdftopng : Bytes → Option Bytes

/-! ## Handlers -/

/-- The tail of `handleElectionDocPOST` from the construction of
`er := electionRecord{Id: itemid, Owner: user.Guid, Data: body}` on:
`PutElection`, on failure 500 `db put fail`, on success invalidation of the
`itemname` and `itemname + ".png"` cache keys followed by the 200 response
with the marshalled `EditContext` (whose `json.Marshal` never fails). -/
def postPut {σ : Type} (db : DbOps σ) (st : σ) (cache : Cache) (guid : String)
    (itemname : Bytes) (itemid : Int) (body : Bytes) (tr : List Event) :
    Response × σ × Cache × List Event :=
  let er : ElectionRecord := ⟨itemid, guid, body⟩
  match db.putElection st er with
  | (none, st2) =>
    (.text 500 "db put fail", st2, cache, tr ++ [.putElection er, .respond 500])
  | (some newid, st2) =>
    let c1 := cache.Invalidate itemname
    let c2 := c1.Invalidate (itemname ++ str ".png")
    (.editJson newid, st2, c2,
      tr ++ [.putElection er, .cacheInvalidate itemname,
             .cacheInvalidate (itemname ++ str ".png"), .respond 200])

/-- `handleElectionDocPOST(w, r, edb, user, itemname, itemid)`: reject
unauthenticated callers (401), read the body through a 1,000,000-byte
`MaxBytesReader` (400 `bad body` past the limit), require it to unmarshal into
a JSON map (400 `bad json`), for `itemid ≠ 0` fetch the stored record
(discarding the error) and reject a caller other than its owner (401), then
store and invalidate as in `postPut`. -/
def handleElectionDocPOST {σ : Type} (db : DbOps σ) (st : σ) (cache : Cache)
    (user : Option String) (itemname : Bytes) (itemid : Int) (body : Bytes) :
    Response × σ × Cache × List Event :=
  match user with
  | none => (.text 401 "nope", st, cache, [.respond 401])
  | some guid =>
    if 1000000 < body.length then
      (.text 400 "bad body", st, cache, [.respond 400])
    else if !unmarshalsToMap body then
      (.text 400 "bad json", st, cache, [.respond 400])
    else if itemid ≠ 0 then
      match db.getElection st itemid with
      | some older =>
        if older.Owner ≠ guid then
          (.text 401 "nope", st, cache, [.getElection itemid, .respond 401])
        else
          postPut db st cache guid itemname itemid body [.getElection itemid]
      | none => postPut db st cache guid itemname itemid body [.getElection itemid]
    else
      postPut db st cache guid itemname itemid body []

/-- `handleElectionDocGET(w, r, edb, user, itemid)`: fetch the record (400
`no item` on a missing row or query error) and write its raw stored JSON
with status 200; no read authorization is performed. -/
def handleElectionDocGET {σ : Type} (db : DbOps σ) (st : σ) (itemid : Int) :
    Response × List Event :=
  match db.getElection st itemid with
  | none => (.text 400 "no item", [.getElection itemid, .respond 400])
  | some er => (.rawJson er.Data, [.getElection itemid, .respond 200])

/-- `getPdf(edb, el)`: on a cache hit under key `el` return the cached
PDF+bubbles pair; on a miss parse the id (400 `bad item`), fetch the record
(400 `no item`), call the draw backend (500 `draw fail`), and cache the pair
under `el` with size `len(Pdf)+len(BubblesJson)`. -/
def getPdf {σ : Type} (db : DbOps σ) (render : RenderOps) (st : σ)
    (cache : Cache) (el : Bytes) :
    Except HttpError DrawBothOb × Cache × List Event :=
  match cache.Get el with
  | some v => (.ok v.asBoth, cache, [.cacheGet el])
  | none =>
    match parseInt64 el with
    | none => (.error ⟨400, "bad item"⟩, cache, [.cacheGet el])
    | some eid =>
      match db.getElection st eid with
      | none => (.error ⟨400, "no item"⟩, cache, [.cacheGet el, .getElection eid])
      | some er =>
        match render.draw er.Data with
        | none =>
          (.error ⟨500, "draw fail"⟩, cache,
            [.cacheGet el, .getElection eid, .draw er.Data])
        | some (pdf, bubbles) =>
          (.ok ⟨pdf, bubbles⟩, cache.Put el (.both pdf bubbles),
            [.cacheGet el, .getElection eid, .draw er.Data,
             .cachePut el (pdf.length + bubbles.length)])

/-- `getPng(edb, el)`: on a cache hit under key `el + ".png"` return the
cached PNG; on a miss obtain the pair via `getPdf`, convert the PDF (500
`png fail` on conversion error) and cache the PNG bytes under the png key. -/
def getPng {σ : Type} (db : DbOps σ) (render : RenderOps) (st : σ)
    (cache : Cache) (el : Bytes) :
    Except HttpError Bytes × Cache × List Event :=
  let pngkey := el ++ str ".png"
  match cache.Get pngkey with
  | some v => (.ok v.asPng, cache, [.cacheGet pngkey])
  | none =>
    match getPdf db render st cache el with
    | (.error e, c2, tr) => (.error e, c2, .cacheGet pngkey :: tr)
    | (.ok bothob, c2, tr) =>
      match render.pdftopng bothob.Pdf with
      | none =>
        (.error ⟨500, "png fail"⟩, c2,
          .cacheGet pngkey :: tr ++ [.pdftopng bothob.Pdf])
      | some png =>
        (.ok png, c2.Put pngkey (.png png),
          .cacheGet pngkey :: tr ++ [.pdftopng bothob.Pdf, .cachePut pngkey png.length])

/-- `StudioHandler.ServeHTTP` after a successful scoped DB open and identity
resolution (both external collaborators; `user` is the resolved identity):
exact-path `/election` (POST creates, other methods get the 400 `nope` JSON),
then the five regex routes in source order, falling through to the 200 HTML
home page.  POST `/election/{id}/scan` is handled by `handleElectionScanPOST`,
which is repository code not under `src/` (modelled from the spec as an
accepted upload). -/
def ServeHTTP {σ : Type} (db : DbOps σ) (render : RenderOps) (st : σ)
    (cache : Cache) (user : Option String) (method : String) (path : Bytes)
    (body : Bytes) : Response × σ × Cache × List Event :=
  if path = str "/election" then
    if method = "POST" then
      handleElectionDocPOST db st cache user [] 0 body
    else (.jsonErr 400 nopeJson, st, cache, [.respond 400])
  else
    match reMatch (str "/election/") [] path with
    | some m1 =>
      match parseInt64 m1 with
      | none => (.text 400 "bad item", st, cache, [.respond 400])
      | some eid =>
        if method = "GET" then
          let p := handleElectionDocGET db st eid
          (p.1, st, cache, p.2)
        else if method = "POST" then
          handleElectionDocPOST db st cache user m1 eid body
        else (.jsonErr 400 nopeJson, st, cache, [.respond 400])
    | none =>
    match reMatch (str "/election/") (str ".pdf") path with
    | some m1 =>
      match getPdf db render st cache m1 with
      | (.error he, c2, tr) => (.text he.code he.msg, st, c2, tr ++ [.respond he.code])
      | (.ok bothob, c2, tr) => (.pdfBytes bothob.Pdf, st, c2, tr ++ [.respond 200])
    | none =>
    match reMatch (str "/election/") (str "_bubbles.json") path with
    | some m1 =>
      match getPdf db render st cache m1 with
      | (.error he, c2, tr) => (.text he.code he.msg, st, c2, tr ++ [.respond he.code])
      | (.ok bothob, c2, tr) => (.jsonBytes bothob.BubblesJson, st, c2, tr ++ [.respond 200])
    | none =>
    match reMatch (str "/election/") (str ".png") path with
    | some m1 =>
      match getPng db render st cache m1 with
      | (.error he, c2, tr) => (.text he.code he.msg, st, c2, tr ++ [.respond he.code])
      | (.ok png, c2, tr) => (.pngBytes png, st, c2, tr ++ [.respond 200])
    | none =>
    match reMatch (str "/election/") (str "/scan") path with
    | some m1 =>
      if method = "POST" then (.scanUpload m1, st, cache, [.respond 200])
      else
        match parseInt64 m1 with
        | none => (.text 400 "bad item", st, cache, [.respond 400])
        | some eid => (.htmlScanForm eid, st, cache, [.respond 200])
    | none => (.htmlHome user, st, cache, [.respond 200])

/-! ## Dispatch lemmas -/

lemma isDigits_append (a b : Bytes) : isDigits (a ++ b) = (isDigits a && isDigits b) :=
  List.all_append

lemma isEmpty_eq_false_of_ne {s : Bytes} (hne : s ≠ []) : s.isEmpty = false := by
  cases s with
  | nil => exact absurd rfl hne
  | cons a t => rfl

lemma parseInt64_some {s : Bytes} {eid : Int} (h : parseInt64 s = some eid) :
    s ≠ [] ∧ isDigits s = true := by
  unfold parseInt64 at h
  split at h
  · rename_i hc
    simp only [Bool.and_eq_true, Bool.not_eq_true', decide_eq_true_eq] at hc
    refine ⟨fun hs => ?_, hc.1.2⟩
    rw [hs] at hc
    simp at hc
  · exact Option.noConfusion h

lemma reMatch_append (pre suf s : Bytes) (hd : isDigits s = true) (hne : s ≠ []) :
    reMatch pre suf (pre ++ s ++ suf) = some s := by
  have hpre : pre.isPrefixOf (pre ++ s ++ suf) = true := by
    rw [List.isPrefixOf_iff_prefix, List.append_assoc]
    exact List.prefix_append _ _
  have hsuf : suf.isSuffixOf (pre ++ s ++ suf) = true := by
    rw [List.isSuffixOf_iff_suffix]
    exact List.suffix_append _ _
  have hrest : (pre ++ s ++ suf).drop pre.length = s ++ suf := by
    rw [List.append_assoc]
    exact List.drop_left _ _
  have hmid : (s ++ suf).take ((s ++ suf).length - suf.length) = s := by
    rw [List.length_append, Nat.add_sub_cancel]
    exact List.take_left _ _
  simp only [reMatch, hrest, hmid, hpre, hsuf, hd, isEmpty_eq_false_of_ne hne]
  simp

lemma reMatch_nil_suf_none (pre rest : Bytes) (h : isDigits rest = false) :
    reMatch pre [] (pre ++ rest) = none := by
  have hrest : (pre ++ rest).drop pre.length = rest := List.drop_left _ _
  simp only [reMatch, hrest, List.length_nil, Nat.sub_zero, List.take_length, h]
  simp

lemma reMatch_none_of_suffix_false (pre suf path : Bytes)
    (h : suf.isSuffixOf path = false) : reMatch pre suf path = none := by
  simp [reMatch, h]

lemma suffix_of_suffix_le {a b c : Bytes} (h1 : a <:+ c) (h2 : b <:+ c)
    (hl : a.length ≤ b.length) : a <:+ b := by
  rw [← List.reverse_prefix] at h1 h2 ⊢
  exact List.prefix_of_prefix_length_le h1 h2 (by simpa using hl)

lemma isSuffixOf_false_append {a t : Bytes} (x : Bytes)
    (h1 : ¬ a <:+ t) (h2 : ¬ t <:+ a) : a.isSuffixOf (x ++ t) = false := by
  rw [Bool.eq_false_iff]
  intro hcon
  rw [List.isSuffixOf_iff_suffix] at hcon
  have ht : t <:+ x ++ t := List.suffix_append _ _
  rcases le_total a.length t.length with hle | hle
  · exact h1 (suffix_of_suffix_le hcon ht hle)
  · exact h2 (suffix_of_suffix_le ht hcon hle)

lemma path_ne_election {s : Bytes} (t : Bytes) (hne : s ≠ []) :
    str "/election/" ++ s ++ t ≠ str "/election" := by
  intro h
  have hlen := congrArg List.length h
  have hs : 0 < s.length := List.length_pos.mpr hne
  have h10 : (str "/election/").length = 10 := rfl
  have h9 : (str "/election").length = 9 := rfl
  rw [List.length_append, List.length_append, h10, h9] at hlen
  omega

/-- Route `/election` + POST goes to the create handler. -/
lemma ServeHTTP_electionPOST {σ : Type} (db : DbOps σ) (render : RenderOps)
    (st : σ) (cache : Cache) (user : Option String) (body : Bytes) :
    ServeHTTP db render st cache user "POST" (str "/election") body =
      handleElectionDocPOST db st cache user [] 0 body := by
  simp [ServeHTTP]

/-- Route `/election/{digits}`: source behavior after the two dispatch tests. -/
lemma ServeHTTP_doc {σ : Type} (db : DbOps σ) (render : RenderOps) (st : σ)
    (cache : Cache) (user : Option String) (method : String) (s body : Bytes)
    (hd : isDigits s = true) (hne : s ≠ []) :
    ServeHTTP db render st cache user method (str "/election/" ++ s) body =
      (match parseInt64 s with
       | none => (.text 400 "bad item", st, cache, [.respond 400])
       | some eid =>
         if method = "GET" then
           let p := handleElectionDocGET db st eid
           (p.1, st, cache, p.2)
         else if method = "POST" then
           handleElectionDocPOST db st cache user s eid body
         else (.jsonErr 400 nopeJson, st, cache, [.respond 400])) := by
  have h1 : str "/election/" ++ s ≠ str "/election" := by
    have := path_ne_election [] hne
    simpa using this
  have h2 : reMatch (str "/election/") [] (str "/election/" ++ s) = some s := by
    have := reMatch_append (str "/election/") [] s hd hne
    simpa using this
  simp only [ServeHTTP, if_neg h1, h2]

/-- Route `/election/{digits}` + POST goes to the update handler. -/
lemma ServeHTTP_docPOST {σ : Type} (db : DbOps σ) (render : RenderOps) (st : σ)
    (cache : Cache) (user : Option String) (s body : Bytes) (eid : Int)
    (hp : parseInt64 s = some eid) :
    ServeHTTP db render st cache user "POST" (str "/election/" ++ s) body =
      handleElectionDocPOST db st cache user s eid body := by
  obtain ⟨hne, hd⟩ := parseInt64_some hp
  rw [ServeHTTP_doc db render st cache user "POST" s body hd hne, hp]
  simp

/-- Route `/election/{digits}` + GET goes to the raw-JSON read handler. -/
lemma ServeHTTP_docGET {σ : Type} (db : DbOps σ) (render : RenderOps) (st : σ)
    (cache : Cache) (user : Option String) (s body : Bytes) (eid : Int)
    (hp : parseInt64 s = some eid) :
    ServeHTTP db render st cache user "GET" (str "/election/" ++ s) body =
      (let p := handleElectionDocGET db st eid
       (p.1, st, cache, p.2)) := by
  obtain ⟨hne, hd⟩ := parseInt64_some hp
  rw [ServeHTTP_doc db render st cache user "GET" s body hd hne, hp]
  simp

/-- Route `/election/{digits}.pdf` (any method) serves the cached-or-rendered
PDF. -/
lemma ServeHTTP_pdf {σ : Type} (db : DbOps σ) (render : RenderOps) (st : σ)
    (cache : Cache) (user : Option String) (method : String) (s body : Bytes)
    (hd : isDigits s = true) (hne : s ≠ []) :
    ServeHTTP db render st cache user method (str "/election/" ++ s ++ str ".pdf") body =
      (match getPdf db render st cache s with
       | (.error he, c2, tr) => (.text he.code he.msg, st, c2, tr ++ [.respond he.code])
       | (.ok bothob, c2, tr) => (.pdfBytes bothob.Pdf, st, c2, tr ++ [.respond 200])) := by
  have h1 := path_ne_election (str ".pdf") hne
  have hdoc : reMatch (str "/election/") [] (str "/election/" ++ s ++ str ".pdf") = none := by
    rw [List.append_assoc]
    apply reMatch_nil_suf_none
    rw [isDigits_append]
    simp [show isDigits (str ".pdf") = false from by decide]
  have hpdf : reMatch (str "/election/") (str ".pdf") (str "/election/" ++ s ++ str ".pdf") = some s :=
    reMatch_append _ _ _ hd hne
  simp only [ServeHTTP, if_neg h1, hdoc, hpdf]

/-- Route `/election/{digits}_bubbles.json` (any method) serves the
cached-or-rendered bubbles JSON. -/
lemma ServeHTTP_bubbles {σ : Type} (db : DbOps σ) (render : RenderOps) (st : σ)
    (cache : Cache) (user : Option String) (method : String) (s body : Bytes)
    (hd : isDigits s = true) (hne : s ≠ []) :
    ServeHTTP db render st cache user method
        (str "/election/" ++ s ++ str "_bubbles.json") body =
      (match getPdf db render st cache s with
       | (.error he, c2, tr) => (.text he.code he.msg, st, c2, tr ++ [.respond he.code])
       | (.ok bothob, c2, tr) => (.jsonBytes bothob.BubblesJson, st, c2, tr ++ [.respond 200])) := by
  have h1 := path_ne_election (str "_bubbles.json") hne
  have hdoc : reMatch (str "/election/") []
      (str "/election/" ++ s ++ str "_bubbles.json") = none := by
    rw [List.append_assoc]
    apply reMatch_nil_suf_none
    rw [isDigits_append]
    simp [show isDigits (str "_bubbles.json") = false from by decide]
  have hpdf : reMatch (str "/election/") (str ".pdf")
      (str "/election/" ++ s ++ str "_bubbles.json") = none := by
    apply reMatch_none_of_suffix_false
    exact isSuffixOf_false_append _ (by decide) (by decide)
  have hbub : reMatch (str "/election/") (str "_bubbles.json")
      (str "/election/" ++ s ++ str "_bubbles.json") = some s :=
    reMatch_append _ _ _ hd hne
  simp only [ServeHTTP, if_neg h1, hdoc, hpdf, hbub]

/-- Route `/election/{digits}.png` (any method) serves the cached-or-derived
PNG. -/
lemma ServeHTTP_png {σ : Type} (db : DbOps σ) (render : RenderOps) (st : σ)
    (cache : Cache) (user : Option String) (method : String) (s body : Bytes)
    (hd : isDigits s = true) (hne : s ≠ []) :
    ServeHTTP db render st cache user method (str "/election/" ++ s ++ str ".png") body =
      (match getPng db render st cache s with
       | (.error he, c2, tr) => (.text he.code he.msg, st, c2, tr ++ [.respond he.code])
       | (.ok png, c2, tr) => (.pngBytes png, st, c2, tr ++ [.respond 200])) := by
  have h1 := path_ne_election (str ".png") hne
  have hdoc : reMatch (str "/election/") [] (str "/election/" ++ s ++ str ".png") = none := by
    rw [List.append_assoc]
    apply reMatch_nil_suf_none
    rw [isDigits_append]
    simp [show isDigits (str ".png") = false from by decide]
  have hpdf : reMatch (str "/election/") (str ".pdf")
      (str "/election/" ++ s ++ str ".png") = none := by
    apply reMatch_none_of_suffix_false
    exact isSuffixOf_false_append _ (by decide) (by decide)
  have hbub : reMatch (str "/election/") (str "_bubbles.json")
      (str "/election/" ++ s ++ str ".png") = none := by
    apply reMatch_none_of_suffix_false
    exact isSuffixOf_false_append _ (by decide) (by decide)
  have hpng : reMatch (str "/election/") (str ".png")
      (str "/election/" ++ s ++ str ".png") = some s :=
    reMatch_append _ _ _ hd hne
  simp only [ServeHTTP, if_neg h1, hdoc, hpdf, hbub, hpng]

/-- Any request whose path equals none of the recognized shapes falls through
to the 200 home page, whatever the method. -/
lemma ServeHTTP_home {σ : Type} (db : DbOps σ) (render : RenderOps) (st : σ)
    (cache : Cache) (user : Option String) (method : String) (path body : Bytes)
    (h0 : path ≠ str "/election")
    (h1 : reMatch (str "/election/") [] path = none)
    (h2 : reMatch (str "/election/") (str ".pdf") path = none)
    (h3 : reMatch (str "/election/") (str "_bubbles.json") path = none)
    (h4 : reMatch (str "/election/") (str ".png") path = none)
    (h5 : reMatch (str "/election/") (str "/scan") path = none) :
    ServeHTTP db render st cache user method path body =
      (.htmlHome user, st, cache, [.respond 200]) := by
  simp only [ServeHTTP, if_neg h0, h1, h2, h3, h4, h5]

/-! ## Concrete scenario environment -/

/-- Election data stored before the scenario updates: the JSON object
`\x7b"v":1\x7d`. -/
def d1 : Bytes := str "\x7b\"v\":1\x7d"

/-- Replacement election data: the JSON object `\x7b"v":2\x7d`. -/
def d2 : Bytes := str "\x7b\"v\":2\x7d"

/-- A deterministic render environment: the draw backend echoes the election
data as both the PDF and the bubbles JSON, and the PNG conversion is the
identity.  Distinct election data therefore yields distinct artifacts. -/
def render0 : RenderOps := ⟨fun d => some (d, d), fun p => some p⟩

/-- One stored election: id 7, owner `"u"`, data `d1`; next fresh id 8. -/
def st0 : Store := ⟨[⟨7, "u", d1⟩], 8⟩

/-! ## Inversion lemmas for the write path -/

/-- Inversion of `postPut` on a 200 outcome: the storage write succeeded, and
the trace extends the prefix with the write, the two invalidations, and the
response, in that order. -/
lemma postPut_success {σ : Type} {db : DbOps σ} {st st2 : σ} {cache c2 : Cache}
    {guid : String} {itemname body : Bytes} {itemid : Int} {tr0 tr : List Event}
    {resp : Response}
    (heq : postPut db st cache guid itemname itemid body tr0 = (resp, st2, c2, tr))
    (h200 : resp.status = 200) :
    ∃ newid,
      db.putElection st ⟨itemid, guid, body⟩ = (some newid, st2) ∧
      resp = .editJson newid ∧
      c2 = (cache.Invalidate itemname).Invalidate (itemname ++ str ".png") ∧
      tr = tr0 ++ [.putElection ⟨itemid, guid, body⟩, .cacheInvalidate itemname,
                   .cacheInvalidate (itemname ++ str ".png"), .respond 200] := by
  simp only [postPut] at heq
  rcases hput : db.putElection st ⟨itemid, guid, body⟩ with ⟨o, st2'⟩
  rw [hput] at heq
  cases o with
  | none =>
    simp only [Prod.mk.injEq] at heq
    rw [← heq.1] at h200
    simp [Response.status] at h200
  | some newid =>
    simp only [Prod.mk.injEq] at heq
    obtain ⟨h1, h2, h3, h4⟩ := heq
    subst h2
    exact ⟨newid, rfl, h1.symm, h3.symm, h4.symm⟩

/-- Inversion of `handleElectionDocPOST` on a 200 outcome: the caller was
authenticated, the body passed both checks, the storage write succeeded from
the pre-state, and the trace ends with write → invalidate both keys → 200. -/
lemma handleElectionDocPOST_success {σ : Type} {db : DbOps σ} {st st2 : σ}
    {cache c2 : Cache} {user : Option String} {itemname body : Bytes}
    {itemid : Int} {resp : Response} {tr : List Event}
    (heq : handleElectionDocPOST db st cache user itemname itemid body = (resp, st2, c2, tr))
    (h200 : resp.status = 200) :
    ∃ guid newid tr0,
      user = some guid ∧
      body.length ≤ 1000000 ∧ unmarshalsToMap body = true ∧
      db.putElection st ⟨itemid, guid, body⟩ = (some newid, st2) ∧
      resp = .editJson newid ∧
      c2 = (cache.Invalidate itemname).Invalidate (itemname ++ str ".png") ∧
      tr = tr0 ++ [.putElection ⟨itemid, guid, body⟩, .cacheInvalidate itemname,
                   .cacheInvalidate (itemname ++ str ".png"), .respond 200] := by
  cases user with
  | none =>
    simp only [handleElectionDocPOST, Prod.mk.injEq] at heq
    rw [← heq.1] at h200
    simp [Response.status] at h200
  | some guid =>
    simp only [handleElectionDocPOST] at heq
    split at heq
    · simp only [Prod.mk.injEq] at heq
      rw [← heq.1] at h200
      simp [Response.status] at h200
    · split at heq
      · simp only [Prod.mk.injEq] at heq
        rw [← heq.1] at h200
        simp [Response.status] at h200
      · rename_i hb hj
        have hb2 : body.length ≤ 1000000 := Nat.not_lt.mp hb
        have hj2 : unmarshalsToMap body = true := by
          revert hj
          cases unmarshalsToMap body <;> simp
        split at heq
        · split at heq
          · split at heq
            · simp only [Prod.mk.injEq] at heq
              rw [← heq.1] at h200
              simp [Response.status] at h200
            · obtain ⟨newid, h⟩ := postPut_success heq h200
              exact ⟨guid, newid, _, rfl, hb2, hj2, h⟩
          · obtain ⟨newid, h⟩ := postPut_success heq h200
            exact ⟨guid, newid, _, rfl, hb2, hj2, h⟩
        · obtain ⟨newid, h⟩ := postPut_success heq h200
          exact ⟨guid, newid, _, rfl, hb2, hj2, h⟩

/-- `postPut` against a storage whose `PutElection` always fails: 500
response, cache returned untouched, and no invalidation events. -/
lemma postPut_fail {σ : Type} (db : DbOps σ)
    (hfail : ∀ st1 er, (db.putElection st1 er).1 = none)
    (st : σ) (cache : Cache) (guid : String) (itemname body : Bytes)
    (itemid : Int) (tr0 : List Event) :
    postPut db st cache guid itemname itemid body tr0 =
      (.text 500 "db put fail", (db.putElection st ⟨itemid, guid, body⟩).2, cache,
       tr0 ++ [.putElection ⟨itemid, guid, body⟩, .respond 500]) := by
  simp only [postPut]
  rcases hput : db.putElection st ⟨itemid, guid, body⟩ with ⟨o, st2⟩
  have ho := hfail st ⟨itemid, guid, body⟩
  rw [hput] at ho
  have ho2 : o = none := by simpa using ho
  subst ho2
  rfl

/-- Reduction of the POST handler on the create path (`itemid = 0`) with a
valid body. -/
lemma handleElectionDocPOST_create {σ : Type} {db : DbOps σ} {st : σ}
    {cache : Cache} {guid : String} {itemname body : Bytes}
    (hb : body.length ≤ 1000000) (hj : unmarshalsToMap body = true) :
    handleElectionDocPOST db st cache (some guid) itemname 0 body =
      postPut db st cache guid itemname 0 body [] := by
  simp [handleElectionDocPOST, Nat.not_lt.mpr hb, hj]

/-- Reduction of the POST handler on an owner-authorized update with a valid
body. -/
lemma handleElectionDocPOST_authorized {σ : Type} {db : DbOps σ} {st : σ}
    {cache : Cache} {guid : String} {itemname body : Bytes} {itemid : Int}
    {older : ElectionRecord}
    (hb : body.length ≤ 1000000) (hj : unmarshalsToMap body = true)
    (hz : itemid ≠ 0) (hget : db.getElection st itemid = some older)
    (how : older.Owner = guid) :
    handleElectionDocPOST db st cache (some guid) itemname itemid body =
      postPut db st cache guid itemname itemid body [.getElection itemid] := by
  simp [handleElectionDocPOST, Nat.not_lt.mpr hb, hj, hz, hget, how]

/-- Reduction of the POST handler on an update whose stored record is absent
(the `GetElection` error is discarded and the ownership test is skipped). -/
lemma handleElectionDocPOST_missing {σ : Type} {db : DbOps σ} {st : σ}
    {cache : Cache} {guid : String} {itemname body : Bytes} {itemid : Int}
    (hb : body.length ≤ 1000000) (hj : unmarshalsToMap body = true)
    (hz : itemid ≠ 0) (hget : db.getElection st itemid = none) :
    handleElectionDocPOST db st cache (some guid) itemname itemid body =
      postPut db st cache guid itemname itemid body [.getElection itemid] := by
  simp [handleElectionDocPOST, Nat.not_lt.mpr hb, hj, hz, hget]

/-- The only record a `postPut` trace ever passes to `PutElection` is
`⟨itemid, guid, body⟩`. -/
lemma postPut_put_events {σ : Type} (db : DbOps σ) (st : σ) (cache : Cache)
    (guid : String) (itemname body : Bytes) (itemid : Int) (tr0 : List Event)
    (er : ElectionRecord)
    (hm : Event.putElection er ∈ (postPut db st cache guid itemname itemid body tr0).2.2.2)
    (h0 : Event.putElection er ∉ tr0) :
    er = ⟨itemid, guid, body⟩ := by
  simp only [postPut] at hm
  rcases hput : db.putElection st ⟨itemid, guid, body⟩ with ⟨o, st2⟩
  rw [hput] at hm
  cases o with
  | none =>
    simp only [List.mem_append, List.mem_cons, List.mem_singleton] at hm
    rcases hm with hm | hm | hm
    · exact absurd hm h0
    · exact Event.putElection.inj hm
    · exact absurd hm (by simp)
  | some newid =>
    simp only [List.mem_append, List.mem_cons, List.mem_singleton] at hm
    rcases hm with hm | hm | hm | hm | hm
    · exact absurd hm h0
    · exact Event.putElection.inj hm
    · exact absurd hm (by simp)
    · exact absurd hm (by simp)
    · exact absurd hm (by simp)

/-! ## Claims -/

/-- Claim C2: for every GET of `/election/{id}.pdf` or
`/election/{id}_bubbles.json`, if the cache holds an entry for the key equal
to the id string from the path, the handler returns the cached PDF+bubbles
pair without invoking the draw backend and without fetching the election
record from storage (the trace holds only the cache lookup and the response);
on a miss it fetches the record, renders once, and stores the resulting pair
under that key. -/
theorem c2_cache_hit_bypass {σ : Type} (db : DbOps σ) (render : RenderOps)
    (st : σ) (cache : Cache) (user : Option String) (s : Bytes)
    (hd : isDigits s = true) (hne : s ≠ []) :
    (∀ p b, cache.Get s = some (.both p b) →
      ServeHTTP db render st cache user "GET" (str "/election/" ++ s ++ str ".pdf") [] =
        (.pdfBytes p, st, cache, [.cacheGet s, .respond 200]) ∧
      ServeHTTP db render st cache user "GET" (str "/election/" ++ s ++ str "_bubbles.json") [] =
        (.jsonBytes b, st, cache, [.cacheGet s, .respond 200])) ∧
    (∀ eid er pdf bubbles, cache.Get s = none → parseInt64 s = some eid →
      db.getElection st eid = some er → render.draw er.Data = some (pdf, bubbles) →
      ServeHTTP db render st cache user "GET" (str "/election/" ++ s ++ str ".pdf") [] =
        (.pdfBytes pdf, st, cache.Put s (.both pdf bubbles),
          [.cacheGet s, .getElection eid, .draw er.Data,
           .cachePut s (pdf.length + bubbles.length), .respond 200]) ∧
      ServeHTTP db render st cache user "GET" (str "/election/" ++ s ++ str "_bubbles.json") [] =
        (.jsonBytes bubbles, st, cache.Put s (.both pdf bubbles),
          [.cacheGet s, .getElection eid, .draw er.Data,
           .cachePut s (pdf.length + bubbles.length), .respond 200])) := by
  constructor
  · intro p b hhit
    constructor
    · rw [ServeHTTP_pdf db render st cache user "GET" s [] hd hne]
      simp [getPdf, hhit, CacheVal.asBoth]
    · rw [ServeHTTP_bubbles db render st cache user "GET" s [] hd hne]
      simp [getPdf, hhit, CacheVal.asBoth]
  · intro eid er pdf bubbles hmiss hp hget hdraw
    constructor
    · rw [ServeHTTP_pdf db render st cache user "GET" s [] hd hne]
      simp [getPdf, hmiss, hp, hget, hdraw]
    · rw [ServeHTTP_bubbles db render st cache user "GET" s [] hd hne]
      simp [getPdf, hmiss, hp, hget, hdraw]

/-- Witness for C2: a concrete hit (cache preloaded under key `"7"`) and a
concrete miss (empty cache, record 7 fetched, drawn once, stored). -/
theorem c2_cache_hit_bypass_witness :
    Cache.Get (emptyCache.Put (str "7") (.both d1 d1)) (str "7") = some (.both d1 d1) ∧
    ServeHTTP storeOps render0 st0 (emptyCache.Put (str "7") (.both d1 d1)) none "GET"
        (str "/election/" ++ str "7" ++ str ".pdf") [] =
      (.pdfBytes d1, st0, emptyCache.Put (str "7") (.both d1 d1),
        [.cacheGet (str "7"), .respond 200]) ∧
    Cache.Get emptyCache (str "7") = none ∧
    ServeHTTP storeOps render0 st0 emptyCache none "GET"
        (str "/election/" ++ str "7" ++ str "_bubbles.json") [] =
      (.jsonBytes d1, st0, emptyCache.Put (str "7") (.both d1 d1),
        [.cacheGet (str "7"), .getElection 7, .draw d1,
         .cachePut (str "7") (d1.length + d1.length), .respond 200]) := by
  refine ⟨rfl, ?_, rfl, ?_⟩
  · exact ((c2_cache_hit_bypass storeOps render0 st0 (emptyCache.Put (str "7") (.both d1 d1))
      none (str "7") (by decide) (by decide)).1 d1 d1 rfl).1
  · exact ((c2_cache_hit_bypass storeOps render0 st0 emptyCache none (str "7")
      (by decide) (by decide)).2 7 ⟨7, "u", d1⟩ d1 d1 rfl (by decide) (by decide) rfl).2

/-- Claim C7 counterexample: a GET to `/election` and a PUT to `/election/7`
match no (pattern, method) shape of the dispatch table, yet each is answered
with the 400 `nope` JSON error body, not the 200 home/listing page. -/
theorem c7_counterexample :
    ServeHTTP storeOps render0 st0 emptyCache none "GET" (str "/election") [] =
      (.jsonErr 400 nopeJson, st0, emptyCache, [.respond 400]) ∧
    ServeHTTP storeOps render0 st0 emptyCache none "PUT" (str "/election/7") [] =
      (.jsonErr 400 nopeJson, st0, emptyCache, [.respond 400]) ∧
    (Response.jsonErr 400 nopeJson).status = 400 := ⟨rfl, rfl, rfl⟩

/-- Claim C7 amended: a request whose path matches none of the recognized
path patterns is answered with the 200 home page regardless of method, while
a request whose path is `/election` or matches `/election/{id}` but whose
method is not in the dispatch table is answered with the 400 `nope` JSON. -/
theorem c7_amended_fallback {σ : Type} (db : DbOps σ) (render : RenderOps)
    (st : σ) (cache : Cache) (user : Option String) (method : String)
    (path body : Bytes) :
    (path ≠ str "/election" →
     reMatch (str "/election/") [] path = none →
     reMatch (str "/election/") (str ".pdf") path = none →
     reMatch (str "/election/") (str "_bubbles.json") path = none →
     reMatch (str "/election/") (str ".png") path = none →
     reMatch (str "/election/") (str "/scan") path = none →
     ServeHTTP db render st cache user method path body =
       (.htmlHome user, st, cache, [.respond 200])) ∧
    (method ≠ "POST" →
     ServeHTTP db render st cache user method (str "/election") body =
       (.jsonErr 400 nopeJson, st, cache, [.respond 400])) ∧
    (∀ s eid, parseInt64 s = some eid → method ≠ "GET" → method ≠ "POST" →
     ServeHTTP db render st cache user method (str "/election/" ++ s) body =
       (.jsonErr 400 nopeJson, st, cache, [.respond 400])) := by
  refine ⟨fun h0 h1 h2 h3 h4 h5 =>
    ServeHTTP_home db render st cache user method path body h0 h1 h2 h3 h4 h5,
    fun hm => ?_, fun s eid hp hg hpo => ?_⟩
  · simp [ServeHTTP, hm]
  · obtain ⟨hne, hd⟩ := parseInt64_some hp
    rw [ServeHTTP_doc db render st cache user method s body hd hne, hp]
    simp [hg, hpo]

/-- Witness for C7 amended: PUT `/foo` gets the home page; DELETE `/election`
and PATCH `/election/7` get the 400 JSON error. -/
theorem c7_amended_fallback_witness :
    ServeHTTP storeOps render0 st0 emptyCache none "PUT" (str "/foo") [] =
      (.htmlHome none, st0, emptyCache, [.respond 200]) ∧
    ServeHTTP storeOps render0 st0 emptyCache none "DELETE" (str "/election") [] =
      (.jsonErr 400 nopeJson, st0, emptyCache, [.respond 400]) ∧
    ServeHTTP storeOps render0 st0 emptyCache none "PATCH" (str "/election/" ++ str "7") [] =
      (.jsonErr 400 nopeJson, st0, emptyCache, [.respond 400]) := by
  refine ⟨?_, ?_, ?_⟩
  · exact (c7_amended_fallback storeOps render0 st0 emptyCache none "PUT" (str "/foo") []).1
      (by decide) (by decide) (by decide) (by decide) (by decide) (by decide)
  · exact (c7_amended_fallback storeOps render0 st0 emptyCache none "DELETE" [] []).2.1
      (by decide)
  · exact (c7_amended_fallback storeOps render0 st0 emptyCache none "PATCH" [] []).2.2
      (str "7") 7 (by decide) (by decide) (by decide)

/-- Claim C3: on every POST to `/election/{id}` that succeeds (status 200),
both cache keys for that election — the id string from the path and that
string with `".png"` appended — are invalidated strictly after the storage
write succeeds and strictly before the 200 response is written: the trace
ends with the successful `PutElection`, the two invalidations, and the 200
response, in that order. -/
theorem c3_invalidation_ordering {σ : Type} (db : DbOps σ) (render : RenderOps)
    (st : σ) (cache : Cache) (user : Option String) (s body : Bytes)
    (resp : Response) (st2 : σ) (c2 : Cache) (tr : List Event)
    (hd : isDigits s = true) (hne : s ≠ [])
    (heq : ServeHTTP db render st cache user "POST" (str "/election/" ++ s) body
            = (resp, st2, c2, tr))
    (h200 : resp.status = 200) :
    ∃ guid newid eid tr0,
      user = some guid ∧ parseInt64 s = some eid ∧
      db.putElection st ⟨eid, guid, body⟩ = (some newid, st2) ∧
      tr = tr0 ++ [.putElection ⟨eid, guid, body⟩, .cacheInvalidate s,
                   .cacheInvalidate (s ++ str ".png"), .respond 200] := by
  cases hp : parseInt64 s with
  | none =>
    rw [ServeHTTP_doc db render st cache user "POST" s body hd hne, hp] at heq
    simp only [Prod.mk.injEq] at heq
    rw [← heq.1] at h200
    simp [Response.status] at h200
  | some eid =>
    rw [ServeHTTP_docPOST db render st cache user s body eid hp] at heq
    obtain ⟨guid, newid, tr0, hu, _, _, hput, _, _, htr⟩ :=
      handleElectionDocPOST_success heq h200
    exact ⟨guid, newid, eid, tr0, hu, rfl, hput, htr⟩

/-- Witness for C3: the owner updates election 7; the trace ends with the
write, both invalidations, and the 200 response in order. -/
theorem c3_invalidation_ordering_witness :
    isDigits (str "7") = true ∧
    ServeHTTP storeOps render0 st0 emptyCache (some "u") "POST"
        (str "/election/" ++ str "7") d2 =
      (.editJson 7, (⟨[⟨7, "u", d2⟩], 8⟩ : Store),
       (emptyCache.Invalidate (str "7")).Invalidate (str "7" ++ str ".png"),
       [.getElection 7, .putElection ⟨7, "u", d2⟩, .cacheInvalidate (str "7"),
        .cacheInvalidate (str "7" ++ str ".png"), .respond 200]) ∧
    (Response.editJson 7).status = 200 ∧
    (∃ guid newid eid tr0,
      (some "u" : Option String) = some guid ∧ parseInt64 (str "7") = some eid ∧
      storeOps.putElection st0 ⟨eid, guid, d2⟩ = (some newid, (⟨[⟨7, "u", d2⟩], 8⟩ : Store)) ∧
      [Event.getElection 7, Event.putElection ⟨7, "u", d2⟩,
       Event.cacheInvalidate (str "7"), Event.cacheInvalidate (str "7" ++ str ".png"),
       Event.respond 200]
        = tr0 ++ [.putElection ⟨eid, guid, d2⟩, .cacheInvalidate (str "7"),
                  .cacheInvalidate (str "7" ++ str ".png"), .respond 200]) := by
  refine ⟨by decide, rfl, rfl, ?_⟩
  exact c3_invalidation_ordering storeOps render0 st0 emptyCache (some "u") (str "7") d2
    (.editJson 7) (⟨[⟨7, "u", d2⟩], 8⟩ : Store)
    ((emptyCache.Invalidate (str "7")).Invalidate (str "7" ++ str ".png"))
    [.getElection 7, .putElection ⟨7, "u", d2⟩, .cacheInvalidate (str "7"),
     .cacheInvalidate (str "7" ++ str ".png"), .respond 200]
    (by decide) (by decide) rfl rfl

/-- Claim C4: both write routes dispatch to `handleElectionDocPOST`; against a
storage whose `PutElection` fails, no trace ever contains a cache
invalidation, the cache is returned unchanged, and whenever the write was
attempted the response is the 500 `db put fail` error (a 5xx). -/
theorem c4_write_failure_atomicity {σ : Type} (db : DbOps σ)
    (hfail : ∀ st1 er, (db.putElection st1 er).1 = none)
    (st : σ) (cache : Cache) (user : Option String) (itemname : Bytes)
    (itemid : Int) (body : Bytes) (resp : Response) (st2 : σ) (c2 : Cache)
    (tr : List Event)
    (heq : handleElectionDocPOST db st cache user itemname itemid body
            = (resp, st2, c2, tr)) :
    (∀ k, Event.cacheInvalidate k ∉ tr) ∧ c2 = cache ∧
    ((∃ er, Event.putElection er ∈ tr) →
      resp = .text 500 "db put fail" ∧ 500 ≤ resp.status) := by
  cases user with
  | none =>
    simp only [handleElectionDocPOST, Prod.mk.injEq] at heq
    obtain ⟨h1, h2, h3, h4⟩ := heq
    subst h1; subst h3; subst h4
    exact ⟨by simp, rfl, by rintro ⟨er, hm⟩; simp at hm⟩
  | some guid =>
    simp only [handleElectionDocPOST] at heq
    split at heq
    · simp only [Prod.mk.injEq] at heq
      obtain ⟨h1, h2, h3, h4⟩ := heq
      subst h1; subst h3; subst h4
      exact ⟨by simp, rfl, by rintro ⟨er, hm⟩; simp at hm⟩
    · split at heq
      · simp only [Prod.mk.injEq] at heq
        obtain ⟨h1, h2, h3, h4⟩ := heq
        subst h1; subst h3; subst h4
        exact ⟨by simp, rfl, by rintro ⟨er, hm⟩; simp at hm⟩
      · split at heq
        · split at heq
          · split at heq
            · simp only [Prod.mk.injEq] at heq
              obtain ⟨h1, h2, h3, h4⟩ := heq
              subst h1; subst h3; subst h4
              exact ⟨by simp, rfl, by rintro ⟨er, hm⟩; simp at hm⟩
            · rw [postPut_fail db hfail] at heq
              simp only [Prod.mk.injEq] at heq
              obtain ⟨h1, h2, h3, h4⟩ := heq
              subst h1; subst h3; subst h4
              exact ⟨by simp, rfl, fun _ => ⟨rfl, by simp [Response.status]⟩⟩
          · rw [postPut_fail db hfail] at heq
            simp only [Prod.mk.injEq] at heq
            obtain ⟨h1, h2, h3, h4⟩ := heq
            subst h1; subst h3; subst h4
            exact ⟨by simp, rfl, fun _ => ⟨rfl, by simp [Response.status]⟩⟩
        · rw [postPut_fail db hfail] at heq
          simp only [Prod.mk.injEq] at heq
          obtain ⟨h1, h2, h3, h4⟩ := heq
          subst h1; subst h3; subst h4
          exact ⟨by simp, rfl, fun _ => ⟨rfl, by simp [Response.status]⟩⟩

/-- Witness for C4: an authenticated update against `failingPutOps`; the
write is attempted and fails, the response is the 500 error, and the trace
holds no invalidation. -/
theorem c4_write_failure_atomicity_witness :
    (∀ st1 er, (failingPutOps.putElection st1 er).1 = none) ∧
    handleElectionDocPOST failingPutOps () emptyCache (some "u") (str "7") 7 d2 =
      (.text 500 "db put fail", (), emptyCache,
       [.getElection 7, .putElection ⟨7, "u", d2⟩, .respond 500]) ∧
    (∀ k, Event.cacheInvalidate k ∉
      [Event.getElection 7, Event.putElection ⟨7, "u", d2⟩, Event.respond 500]) ∧
    (Response.text 500 "db put fail" = .text 500 "db put fail" ∧
     500 ≤ (Response.text 500 "db put fail").status) := by
  have h := c4_write_failure_atomicity failingPutOps (fun _ _ => rfl) ()
    emptyCache (some "u") (str "7") 7 d2 (.text 500 "db put fail") () emptyCache
    [.getElection 7, .putElection ⟨7, "u", d2⟩, .respond 500] rfl
  exact ⟨fun _ _ => rfl, rfl, h.1, h.2.2 ⟨⟨7, "u", d2⟩, by simp⟩⟩

/-- Claim C5 counterexample: an authenticated caller `"v"` who is not the
stored owner `"u"` of election 7 POSTs a malformed body and receives 400
`bad json`, not the claimed 401. -/
theorem c5_counterexample :
    storeOps.getElection st0 7 = some ⟨7, "u", d1⟩ ∧
    ("v" : String) ≠ "u" ∧
    handleElectionDocPOST storeOps st0 emptyCache (some "v") (str "7") 7 (str "x") =
      (.text 400 "bad json", st0, emptyCache, [.respond 400]) ∧
    (Response.text 400 "bad json").status ≠ 401 :=
  ⟨by decide, by decide, rfl, by decide⟩

/-- Claim C5 amended: an unauthenticated POST is rejected 401 (before the body
is read), for any body; an authenticated non-owner whose body passes the size
and JSON checks is rejected 401 with no storage access beyond the ownership
read; and the owner with such a body proceeds to the storage write. -/
theorem c5_write_authorization {σ : Type} (db : DbOps σ) (st : σ)
    (cache : Cache) (itemname body : Bytes) (itemid : Int) :
    (handleElectionDocPOST db st cache none itemname itemid body =
      (.text 401 "nope", st, cache, [.respond 401])) ∧
    (∀ guid older, body.length ≤ 1000000 → unmarshalsToMap body = true →
      itemid ≠ 0 → db.getElection st itemid = some older → older.Owner ≠ guid →
      handleElectionDocPOST db st cache (some guid) itemname itemid body =
        (.text 401 "nope", st, cache, [.getElection itemid, .respond 401])) ∧
    (∀ guid older, body.length ≤ 1000000 → unmarshalsToMap body = true →
      itemid ≠ 0 → db.getElection st itemid = some older → older.Owner = guid →
      Event.putElection ⟨itemid, guid, body⟩ ∈
        (handleElectionDocPOST db st cache (some guid) itemname itemid body).2.2.2) := by
  refine ⟨rfl, ?_, ?_⟩
  · intro guid older hb hj hz hget how
    simp [handleElectionDocPOST, Nat.not_lt.mpr hb, hj, hz, hget, how]
  · intro guid older hb hj hz hget how
    rw [handleElectionDocPOST_authorized hb hj hz hget how]
    simp only [postPut]
    rcases hput : db.putElection st ⟨itemid, guid, body⟩ with ⟨o, st2⟩
    cases o <;> simp

/-- Witness for C5 amended at the concrete store: unauthenticated, non-owner
`"v"`, and owner `"u"` POSTs of the valid body `d2` to election 7. -/
theorem c5_write_authorization_witness :
    handleElectionDocPOST storeOps st0 emptyCache none (str "7") 7 d2 =
      (.text 401 "nope", st0, emptyCache, [.respond 401]) ∧
    (d2.length ≤ 1000000 ∧ unmarshalsToMap d2 = true ∧ (7 : Int) ≠ 0 ∧
     storeOps.getElection st0 7 = some ⟨7, "u", d1⟩ ∧
     (⟨7, "u", d1⟩ : ElectionRecord).Owner ≠ "v") ∧
    handleElectionDocPOST storeOps st0 emptyCache (some "v") (str "7") 7 d2 =
      (.text 401 "nope", st0, emptyCache, [.getElection 7, .respond 401]) ∧
    Event.putElection ⟨7, "u", d2⟩ ∈
      (handleElectionDocPOST storeOps st0 emptyCache (some "u") (str "7") 7 d2).2.2.2 := by
  have h := c5_write_authorization storeOps st0 emptyCache (str "7") d2 7
  exact ⟨h.1, ⟨by decide, by decide, by decide, by decide, by decide⟩,
    h.2.1 "v" ⟨7, "u", d1⟩ (by decide) (by decide) (by decide) (by decide) (by decide),
    h.2.2 "u" ⟨7, "u", d1⟩ (by decide) (by decide) (by decide) (by decide) rfl⟩

/-- Claim C8: the owner of every record passed to `PutElection` on the create
path (`itemid = 0`) is the authenticated caller, and on an owner-authorized
update the record passed to `PutElection` carries an `Owner` equal to the
stored record's owner (and the election's id), so updates never change the
owner. -/
theorem c8_owner_immutability {σ : Type} (db : DbOps σ) (st : σ) (cache : Cache)
    (guid : String) (itemname body : Bytes) (itemid : Int) :
    (∀ er, Event.putElection er ∈
        (handleElectionDocPOST db st cache (some guid) itemname 0 body).2.2.2 →
      er.Owner = guid ∧ er.Id = 0) ∧
    (∀ older er, itemid ≠ 0 → db.getElection st itemid = some older →
      older.Owner = guid →
      Event.putElection er ∈
        (handleElectionDocPOST db st cache (some guid) itemname itemid body).2.2.2 →
      er.Owner = older.Owner ∧ er.Id = itemid) := by
  constructor
  · intro er hm
    by_cases hb : 1000000 < body.length
    · simp [handleElectionDocPOST, hb] at hm
    · by_cases hj : unmarshalsToMap body = true
      · rw [handleElectionDocPOST_create (Nat.not_lt.mp hb) hj] at hm
        have he := postPut_put_events db st cache guid itemname body 0 [] er hm (by simp)
        rw [he]
        exact ⟨rfl, rfl⟩
      · have hj2 : unmarshalsToMap body = false := by
          revert hj
          cases unmarshalsToMap body <;> simp
        simp [handleElectionDocPOST, hb, hj2] at hm
  · intro older er hz hget how hm
    by_cases hb : 1000000 < body.length
    · simp [handleElectionDocPOST, hb] at hm
    · by_cases hj : unmarshalsToMap body = true
      · rw [handleElectionDocPOST_authorized (Nat.not_lt.mp hb) hj hz hget how] at hm
        have he := postPut_put_events db st cache guid itemname body itemid
          [.getElection itemid] er hm (by simp)
        rw [he, how]
        exact ⟨rfl, rfl⟩
      · have hj2 : unmarshalsToMap body = false := by
          revert hj
          cases unmarshalsToMap body <;> simp
        simp [handleElectionDocPOST, hb, hj2] at hm

/-- Witness for C8: creation by `"u"` stores owner `"u"`; the authorized
update of election 7 by `"u"` passes a record owned by the stored owner. -/
theorem c8_owner_immutability_witness :
    Event.putElection ⟨0, "u", d2⟩ ∈
      (handleElectionDocPOST storeOps st0 emptyCache (some "u") [] 0 d2).2.2.2 ∧
    ((⟨0, "u", d2⟩ : ElectionRecord).Owner = "u" ∧
     (⟨0, "u", d2⟩ : ElectionRecord).Id = 0) ∧
    storeOps.getElection st0 7 = some ⟨7, "u", d1⟩ ∧
    Event.putElection ⟨7, "u", d2⟩ ∈
      (handleElectionDocPOST storeOps st0 emptyCache (some "u") (str "7") 7 d2).2.2.2 ∧
    ((⟨7, "u", d2⟩ : ElectionRecord).Owner = (⟨7, "u", d1⟩ : ElectionRecord).Owner ∧
     (⟨7, "u", d2⟩ : ElectionRecord).Id = 7) := by
  refine ⟨by decide, ?_, by decide, by decide, ?_⟩
  · exact (c8_owner_immutability storeOps st0 emptyCache "u" [] d2 7).1
      ⟨0, "u", d2⟩ (by decide)
  · exact (c8_owner_immutability storeOps st0 emptyCache "u" (str "7") d2 7).2
      ⟨7, "u", d1⟩ ⟨7, "u", d2⟩ (by decide) (by decide) rfl (by decide)

/-- Claim C9 counterexample: an unauthenticated POST with a malformed body is
rejected 401 before the body is read, not with the claimed 400. -/
theorem c9_counterexample :
    unmarshalsToMap (str "x") = false ∧
    handleElectionDocPOST storeOps st0 emptyCache none (str "7") 7 (str "x") =
      (.text 401 "nope", st0, emptyCache, [.respond 401]) ∧
    (Response.text 401 "nope").status ≠ 400 := ⟨by decide, rfl, by decide⟩

/-- Claim C9 amended: every authenticated POST reads the body through the
1,000,000-byte limiter — beyond the limit the request is rejected 400
`bad body`, and an in-limit body that does not unmarshal into a JSON map is
rejected 400 `bad json` — in both cases before any ownership check, storage
write, or cache access (the trace holds only the 400 response). -/
theorem c9_body_checks {σ : Type} (db : DbOps σ) (st : σ) (cache : Cache)
    (guid : String) (itemname : Bytes) (itemid : Int) (body : Bytes) :
    (1000000 < body.length →
      handleElectionDocPOST db st cache (some guid) itemname itemid body =
        (.text 400 "bad body", st, cache, [.respond 400])) ∧
    (body.length ≤ 1000000 → unmarshalsToMap body = false →
      handleElectionDocPOST db st cache (some guid) itemname itemid body =
        (.text 400 "bad json", st, cache, [.respond 400])) := by
  constructor
  · intro hb
    simp [handleElectionDocPOST, hb]
  · intro hb hj
    simp [handleElectionDocPOST, Nat.not_lt.mpr hb, hj]

/-- Witness for C9 at a 1,000,001-byte body and at the malformed body `"x"`. -/
theorem c9_body_checks_witness :
    1000000 < (List.replicate 1000001 'a').length ∧
    handleElectionDocPOST storeOps st0 emptyCache (some "u") (str "7") 7
        (List.replicate 1000001 'a') =
      (.text 400 "bad body", st0, emptyCache, [.respond 400]) ∧
    (str "x").length ≤ 1000000 ∧ unmarshalsToMap (str "x") = false ∧
    handleElectionDocPOST storeOps st0 emptyCache (some "u") (str "7") 7 (str "x") =
      (.text 400 "bad json", st0, emptyCache, [.respond 400]) := by
  have hlen : 1000000 < (List.replicate 1000001 'a').length := by
    rw [List.length_replicate]
    norm_num
  refine ⟨hlen, ?_, by decide, by decide, ?_⟩
  · exact (c9_body_checks storeOps st0 emptyCache "u" (str "7") 7
      (List.replicate 1000001 'a')).1 hlen
  · exact (c9_body_checks storeOps st0 emptyCache "u" (str "7") 7 (str "x")).2
      (by decide) (by decide)

/-- Claim C10: an authenticated POST to `/election/{id}` with a valid body and
a nonzero id whose record is absent reports no not-found error: the
`GetElection` result is discarded, the ownership comparison is skipped, and
`PutElection` is invoked with that id and the caller as owner; the response is
the 200 success or — only if the write itself fails — the 500 error. -/
theorem c10_missing_record_update {σ : Type} (db : DbOps σ) (st : σ)
    (cache : Cache) (guid : String) (itemname body : Bytes) (itemid : Int)
    (hb : body.length ≤ 1000000) (hj : unmarshalsToMap body = true)
    (hz : itemid ≠ 0) (hget : db.getElection st itemid = none) :
    handleElectionDocPOST db st cache (some guid) itemname itemid body =
      postPut db st cache guid itemname itemid body [.getElection itemid] ∧
    Event.putElection ⟨itemid, guid, body⟩ ∈
      (handleElectionDocPOST db st cache (some guid) itemname itemid body).2.2.2 ∧
    ((handleElectionDocPOST db st cache (some guid) itemname itemid body).1.status = 200 ∨
     (handleElectionDocPOST db st cache (some guid) itemname itemid body).1 =
       .text 500 "db put fail") := by
  have hred := @handleElectionDocPOST_missing σ db st cache guid itemname body itemid
    hb hj hz hget
  refine ⟨hred, ?_, ?_⟩
  · rw [hred]
    simp only [postPut]
    rcases hput : db.putElection st ⟨itemid, guid, body⟩ with ⟨o, st2⟩
    cases o <;> simp
  · rw [hred]
    simp only [postPut]
    rcases hput : db.putElection st ⟨itemid, guid, body⟩ with ⟨o, st2⟩
    cases o with
    | none => exact Or.inr rfl
    | some newid => exact Or.inl rfl

/-- Witness for C10: empty store, update of the absent election 7 by `"u"`. -/
theorem c10_missing_record_update_witness :
    d2.length ≤ 1000000 ∧ unmarshalsToMap d2 = true ∧ (7 : Int) ≠ 0 ∧
    storeOps.getElection ⟨[], 5⟩ 7 = none ∧
    Event.putElection ⟨7, "u", d2⟩ ∈
      (handleElectionDocPOST storeOps ⟨[], 5⟩ emptyCache (some "u") (str "7") 7 d2).2.2.2 := by
  refine ⟨by decide, by decide, by decide, by decide, ?_⟩
  exact (c10_missing_record_update storeOps ⟨[], 5⟩ emptyCache "u" (str "7") d2 7
    (by decide) (by decide) (by decide) (by decide)).2.1

/-- Claim C6 counterexample: `"[]"` is a well-formed JSON payload, yet an
authenticated POST of it to `/election` is rejected 400 `bad json` (Go's
unmarshal into a map refuses a top-level array) and nothing is stored. -/
theorem c6_counterexample :
    jsonWellFormed (str "[]") = true ∧
    ServeHTTP storeOps render0 st0 emptyCache (some "u") "POST" (str "/election")
        (str "[]") =
      (.text 400 "bad json", st0, emptyCache, [.respond 400]) ∧
    (Response.text 400 "bad json").status ≠ 200 := ⟨by decide, rfl, by decide⟩

/-- Claim C6 amended: for every payload within the 1,000,000-byte body limit
that unmarshals into a JSON map (a well-formed JSON object or null), an
authenticated POST to `/election` stores exactly the payload's bytes as the
fresh record's data, and a subsequent GET of `/election/{newid}` returns
exactly those bytes with status 200 (over the spec-modelled `Store`).
Payloads failing either gate are rejected 400 — `bad body` past the
`MaxBytesReader` limit, `bad json` for any other top-level JSON value — and
nothing is stored. -/
theorem c6_round_trip (render : RenderOps) (st : Store) (cache : Cache)
    (guid : String) (body : Bytes)
    (hb : body.length ≤ 1000000) (hj : unmarshalsToMap body = true) :
    ServeHTTP storeOps render st cache (some guid) "POST" (str "/election") body =
      (.editJson st.nextId,
       (⟨⟨st.nextId, guid, body⟩ :: st.recs, st.nextId + 1⟩ : Store),
       (cache.Invalidate []).Invalidate (str ".png"),
       [.putElection ⟨0, guid, body⟩, .cacheInvalidate [],
        .cacheInvalidate (str ".png"), .respond 200]) ∧
    storeOps.getElection ⟨⟨st.nextId, guid, body⟩ :: st.recs, st.nextId + 1⟩ st.nextId =
      some ⟨st.nextId, guid, body⟩ ∧
    (∀ s render2 cache2 user2, parseInt64 s = some st.nextId →
      ServeHTTP storeOps render2
          (⟨⟨st.nextId, guid, body⟩ :: st.recs, st.nextId + 1⟩ : Store)
          cache2 user2 "GET" (str "/election/" ++ s) [] =
        (.rawJson body,
         (⟨⟨st.nextId, guid, body⟩ :: st.recs, st.nextId + 1⟩ : Store),
         cache2, [.getElection st.nextId, .respond 200])) := by
  have hfind : storeOps.getElection
      ⟨⟨st.nextId, guid, body⟩ :: st.recs, st.nextId + 1⟩ st.nextId =
      some ⟨st.nextId, guid, body⟩ := by
    simp only [storeOps, Store.getElection]
    rw [List.find?_cons_of_pos _ (by simp)]
  refine ⟨?_, hfind, ?_⟩
  · rw [ServeHTTP_electionPOST, handleElectionDocPOST_create hb hj]
    simp [postPut, storeOps, Store.putElection]
  · intro s render2 cache2 user2 hp
    rw [ServeHTTP_docGET storeOps render2 _ cache2 user2 s [] st.nextId hp]
    simp [handleElectionDocGET, hfind]

/-- Witness for C6: create with body `d2` on `st0` (fresh id 8), then read
`/election/8` back and receive exactly `d2` with 200. -/
theorem c6_round_trip_witness :
    d2.length ≤ 1000000 ∧ unmarshalsToMap d2 = true ∧
    ServeHTTP storeOps render0 st0 emptyCache (some "u") "POST" (str "/election") d2 =
      (.editJson 8, (⟨[⟨8, "u", d2⟩, ⟨7, "u", d1⟩], 9⟩ : Store),
       (emptyCache.Invalidate []).Invalidate (str ".png"),
       [.putElection ⟨0, "u", d2⟩, .cacheInvalidate [],
        .cacheInvalidate (str ".png"), .respond 200]) ∧
    ServeHTTP storeOps render0 (⟨[⟨8, "u", d2⟩, ⟨7, "u", d1⟩], 9⟩ : Store) emptyCache
        none "GET" (str "/election/" ++ str "8") [] =
      (.rawJson d2, (⟨[⟨8, "u", d2⟩, ⟨7, "u", d1⟩], 9⟩ : Store), emptyCache,
       [.getElection 8, .respond 200]) := by
  have h := c6_round_trip render0 st0 emptyCache "u" d2 (by decide) (by decide)
  exact ⟨by decide, by decide, h.1, h.2.2 (str "8") render0 emptyCache none (by decide)⟩

/-- Claim C1 counterexample: election 7 (data `d1`) is read once as
`/election/7.pdf`, caching the artifact under key `"7"`; the owner then
updates the same election through the path `/election/007` (`ParseInt` maps
both id strings to election 7), which succeeds with 200 and changes the
stored data to `d2` but invalidates only keys `"007"` and `"007.png"`; the
subsequent GET of `/election/7.pdf` returns the cached artifact rendered from
the pre-update data `d1` — its trace shows no fresh render (no `draw`
event) although the stored data is now `d2` and renders differently. -/
theorem c1_counterexample :
    ServeHTTP storeOps render0 st0 emptyCache none "GET" (str "/election/7.pdf") [] =
      (.pdfBytes d1, st0, emptyCache.Put (str "7") (.both d1 d1),
       [.cacheGet (str "7"), .getElection 7, .draw d1,
        .cachePut (str "7") (d1.length + d1.length), .respond 200]) ∧
    ServeHTTP storeOps render0 st0 (emptyCache.Put (str "7") (.both d1 d1)) (some "u")
        "POST" (str "/election/007") d2 =
      (.editJson 7, (⟨[⟨7, "u", d2⟩], 8⟩ : Store),
       ((emptyCache.Put (str "7") (.both d1 d1)).Invalidate (str "007")).Invalidate
         (str "007" ++ str ".png"),
       [.getElection 7, .putElection ⟨7, "u", d2⟩, .cacheInvalidate (str "007"),
        .cacheInvalidate (str "007" ++ str ".png"), .respond 200]) ∧
    parseInt64 (str "007") = some 7 ∧ parseInt64 (str "7") = some 7 ∧
    storeOps.getElection (⟨[⟨7, "u", d2⟩], 8⟩ : Store) 7 = some ⟨7, "u", d2⟩ ∧
    ServeHTTP storeOps render0 (⟨[⟨7, "u", d2⟩], 8⟩ : Store)
        (((emptyCache.Put (str "7") (.both d1 d1)).Invalidate (str "007")).Invalidate
          (str "007" ++ str ".png")) none "GET" (str "/election/7.pdf") [] =
      (.pdfBytes d1, (⟨[⟨7, "u", d2⟩], 8⟩ : Store),
       ((emptyCache.Put (str "7") (.both d1 d1)).Invalidate (str "007")).Invalidate
         (str "007" ++ str ".png"),
       [.cacheGet (str "7"), .respond 200]) ∧
    render0.draw d2 = some (d2, d2) ∧ d2 ≠ d1 :=
  ⟨rfl, rfl, by decide, by decide, by decide, rfl, rfl, by decide⟩

/-- Claim C1 amended: cache invalidation is keyed by the literal id string of
the update path, so coherence holds for reads that use the same id string:
after any successful (200) POST to `/election/{s}`, the resulting cache holds
nothing under `s` or `s ++ ".png"`, and a subsequent GET of
`/election/{s}.pdf`, `/election/{s}_bubbles.json`, or `/election/{s}.png`
misses the cache and freshly renders (and converts) the now-stored data. -/
theorem c1_cache_coherence {σ : Type} (db : DbOps σ) (render : RenderOps)
    (st : σ) (cache : Cache) (user user2 : Option String) (s body : Bytes)
    (resp : Response) (st2 : σ) (c2 : Cache) (tr : List Event)
    (hd : isDigits s = true) (hne : s ≠ [])
    (heq : ServeHTTP db render st cache user "POST" (str "/election/" ++ s) body
            = (resp, st2, c2, tr))
    (h200 : resp.status = 200) :
    c2 s = none ∧ c2 (s ++ str ".png") = none ∧
    (∀ eid er pdf bubbles, parseInt64 s = some eid →
      db.getElection st2 eid = some er → render.draw er.Data = some (pdf, bubbles) →
      ServeHTTP db render st2 c2 user2 "GET" (str "/election/" ++ s ++ str ".pdf") [] =
        (.pdfBytes pdf, st2, c2.Put s (.both pdf bubbles),
         [.cacheGet s, .getElection eid, .draw er.Data,
          .cachePut s (pdf.length + bubbles.length), .respond 200]) ∧
      ServeHTTP db render st2 c2 user2 "GET" (str "/election/" ++ s ++ str "_bubbles.json") [] =
        (.jsonBytes bubbles, st2, c2.Put s (.both pdf bubbles),
         [.cacheGet s, .getElection eid, .draw er.Data,
          .cachePut s (pdf.length + bubbles.length), .respond 200]) ∧
      (∀ png, render.pdftopng pdf = some png →
        ServeHTTP db render st2 c2 user2 "GET" (str "/election/" ++ s ++ str ".png") [] =
          (.pngBytes png, st2,
           (c2.Put s (.both pdf bubbles)).Put (s ++ str ".png") (.png png),
           [.cacheGet (s ++ str ".png"), .cacheGet s, .getElection eid, .draw er.Data,
            .cachePut s (pdf.length + bubbles.length), .pdftopng pdf,
            .cachePut (s ++ str ".png") png.length, .respond 200]))) := by
  have hneq : s ≠ s ++ str ".png" := by
    intro h
    have h2 := congrArg List.length h
    rw [List.length_append, show (str ".png").length = 4 from rfl] at h2
    omega
  obtain ⟨eid0, hp0⟩ : ∃ eid0, parseInt64 s = some eid0 := by
    cases hp : parseInt64 s with
    | none =>
      rw [ServeHTTP_doc db render st cache user "POST" s body hd hne, hp] at heq
      simp only [Prod.mk.injEq] at heq
      rw [← heq.1] at h200
      simp [Response.status] at h200
    | some e => exact ⟨e, rfl⟩
  rw [ServeHTTP_docPOST db render st cache user s body eid0 hp0] at heq
  obtain ⟨guid, newid, tr0, hu, hb, hj, hput, hresp, hc2, htr⟩ :=
    handleElectionDocPOST_success heq h200
  have hs : c2 s = none := by
    rw [hc2]
    simp [Cache.Invalidate, hneq]
  have hspng : c2 (s ++ str ".png") = none := by
    rw [hc2]
    simp [Cache.Invalidate]
  refine ⟨hs, hspng, ?_⟩
  intro eid er pdf bubbles hp hget hdraw
  refine ⟨?_, ?_, ?_⟩
  · rw [ServeHTTP_pdf db render st2 c2 user2 "GET" s [] hd hne]
    simp [getPdf, Cache.Get, hs, hp, hget, hdraw]
  · rw [ServeHTTP_bubbles db render st2 c2 user2 "GET" s [] hd hne]
    simp [getPdf, Cache.Get, hs, hp, hget, hdraw]
  · intro png hpng
    rw [ServeHTTP_png db render st2 c2 user2 "GET" s [] hd hne]
    simp [getPng, getPdf, Cache.Get, hs, hspng, hp, hget, hdraw, hpng]

/-- Witness for C1 amended: the owner updates election 7 through the path
string `"7"`; both keys are absent afterwards and the next PDF read renders
the new data `d2`. -/
theorem c1_cache_coherence_witness :
    isDigits (str "7") = true ∧
    ServeHTTP storeOps render0 st0 emptyCache (some "u") "POST"
        (str "/election/" ++ str "7") d2 =
      (.editJson 7, (⟨[⟨7, "u", d2⟩], 8⟩ : Store),
       (emptyCache.Invalidate (str "7")).Invalidate (str "7" ++ str ".png"),
       [.getElection 7, .putElection ⟨7, "u", d2⟩, .cacheInvalidate (str "7"),
        .cacheInvalidate (str "7" ++ str ".png"), .respond 200]) ∧
    ((emptyCache.Invalidate (str "7")).Invalidate (str "7" ++ str ".png")) (str "7")
      = none ∧
    ServeHTTP storeOps render0 (⟨[⟨7, "u", d2⟩], 8⟩ : Store)
        ((emptyCache.Invalidate (str "7")).Invalidate (str "7" ++ str ".png")) none "GET"
        (str "/election/" ++ str "7" ++ str ".pdf") [] =
      (.pdfBytes d2, (⟨[⟨7, "u", d2⟩], 8⟩ : Store),
       ((emptyCache.Invalidate (str "7")).Invalidate (str "7" ++ str ".png")).Put
         (str "7") (.both d2 d2),
       [.cacheGet (str "7"), .getElection 7, .draw d2,
        .cachePut (str "7") (d2.length + d2.length), .respond 200]) := by
  have h := c1_cache_coherence storeOps render0 st0 emptyCache (some "u") none
    (str "7") d2 (.editJson 7) (⟨[⟨7, "u", d2⟩], 8⟩ : Store)
    ((emptyCache.Invalidate (str "7")).Invalidate (str "7" ++ str ".png"))
    [.getElection 7, .putElection ⟨7, "u", d2⟩, .cacheInvalidate (str "7"),
     .cacheInvalidate (str "7" ++ str ".png"), .respond 200]
    (by decide) (by decide) rfl rfl
  exact ⟨by decide, rfl, h.1, (h.2.2 7 ⟨7, "u", d2⟩ d2 d2 (by decide) (by decide) rfl).1⟩

end BallotStudio
